import Mathlib

/-!
# Greenlight: the movie repository, the listing handler, the rate limiter and the routes

A shallow embedding of the parts of `alihoda/greenlight` that its specification
makes claims about.

* Go `int64`/`int` values are `Int`; every use below is a comparison, or the
  `version + 1` that the store computes.
* A Go `[]string` is `Option (List String)`, `none` being the nil slice.
* A Go `error` result is `Option GoError`, `none` being `nil`.
* The `movies` table is the list of its rows; one SQL statement is one function
  on that list.
-/

namespace Greenlight

/-! ## internal/data/models.go, internal/data/movies.go -/

/-- The error values that the repository layer can hand back.  `sqlErrNoRows`
is `sql.ErrNoRows`; `storage` is any other failure reported by the driver. -/
inductive GoError where
  | ErrRecordNotFound
  | ErrEditConflict
  | sqlErrNoRows
  | storage (msg : String)
deriving DecidableEq, Repr

/-- Go `len` on a `[]string`; the nil slice has length zero. -/
def sliceLen : Option (List String) → Nat
  | none => 0
  | some xs => xs.length

/-- The `Movie` struct of `internal/data/movies.go`; `CreatedAt` is a time in
nanoseconds. -/
structure Movie where
  Id : Int
  Title : String
  Year : Int
  Runtime : Int
  CreatedAt : Int
  Genres : Option (List String)
  Version : Int
deriving DecidableEq, Repr

/-- The rows of the `movies` table. -/
abbrev DB := List Movie

/-- The `WHERE id = $5 AND version = $6` guard of the update statement. -/
def updateGuard (id version : Int) (r : Movie) : Bool :=
  decide (r.Id = id) && decide (r.Version = version)

/-- The `SET title = $1, year = $2, runtime = $3, genres = $4,
version = version + 1` assignment applied to one row. -/
def updateSet (title : String) (year runtime : Int) (genres : Option (List String))
    (r : Movie) : Movie :=
  { r with Title := title, Year := year, Runtime := runtime, Genres := genres,
           Version := r.Version + 1 }

/-- The statement `UPDATE movies SET ... WHERE id = $5 AND version = $6
RETURNING version`: the table afterwards and the returned rows. -/
def execUpdate (db : DB) (title : String) (year runtime : Int)
    (genres : Option (List String)) (id version : Int) : DB × List Int :=
  (db.map (fun r => if updateGuard id version r then updateSet title year runtime genres r else r),
   (db.filter (updateGuard id version)).map
      (fun r => (updateSet title year runtime genres r).Version))

/-- The `QueryRowContext(...).Scan(&x)` idiom: the first returned row, or
`sql.ErrNoRows` when the statement returned none. -/
def scanRow : List Int → Except GoError Int
  | [] => .error .sqlErrNoRows
  | v :: _ => .ok v

/-- What a call of `MovieModel.Update` leaves behind: the table, the movie
behind the pointer argument, and the returned error. -/
structure UpdateResult where
  db : DB
  movie : Movie
  err : Option GoError
deriving DecidableEq, Repr

/-- `MovieModel.Update` (movies.go, lines 140-163). -/
def Update (db : DB) (movie : Movie) : UpdateResult :=
  let q := execUpdate db movie.Title movie.Year movie.Runtime movie.Genres movie.Id movie.Version
  match scanRow q.2 with
  | .error e =>
    match e with
    | .sqlErrNoRows => { db := q.1, movie := movie, err := some .ErrEditConflict }
    | other => { db := q.1, movie := movie, err := some other }
  | .ok v => { db := q.1, movie := { movie with Version := v }, err := none }

/-- The statement `DELETE FROM movies WHERE id = $1`: the table afterwards and
the number of rows affected. -/
def execDelete (db : DB) (id : Int) : DB × Nat :=
  (db.filter (fun r => !decide (r.Id = id)), (db.filter (fun r => decide (r.Id = id))).length)

/-- `MovieModel.Delete` (movies.go, lines 165-186). -/
def Delete (db : DB) (id : Int) : DB × Option GoError :=
  let q := execDelete db id
  if q.2 = 0 then (q.1, some .ErrRecordNotFound) else (q.1, none)

/-! ## internal/validator -/

/-- Modelled from the spec: the `Validator` of package `internal/validator`,
whose file is not among the sources.  The spec (sections 3 and 4.1) gives it as
a mapping from field name to message with at most one message per field, the
last check winning; `Errors` lists the recorded entries, newest first. -/
structure Validator where
  Errors : List (String × String)
deriving DecidableEq, Repr

/-- Modelled from the spec: `validator.New`, a fresh accumulator with no error
recorded (section 4.1). -/
def Validator.New : Validator := { Errors := [] }

/-- Modelled from the spec: `Valid()` returns true iff no errors are recorded
(section 4.1). -/
def Validator.Valid (v : Validator) : Bool := v.Errors.isEmpty

/-- Modelled from the spec: `AddError` records `message` under `key`, one
message being retained per field, the last one winning (section 3). -/
def Validator.AddError (v : Validator) (key message : String) : Validator :=
  { Errors := (key, message) :: v.Errors.filter (fun e => !decide (e.1 = key)) }

/-- Modelled from the spec: `Check(condition, field, message)` records
`message` under `field` iff `condition` is false (section 4.1). -/
def Validator.Check (v : Validator) (condition : Bool) (key message : String) : Validator :=
  if condition then v else v.AddError key message

/-- Modelled from the spec: `validator.Unique` returns true iff all elements of
the sequence are pairwise distinct, case-sensitively (section 4.1).  The nil
slice has no elements. -/
def Unique (values : Option (List String)) : Bool :=
  decide ((values.getD []).Nodup)

/-! ## internal/data/movies.go: ValidateMovie -/

/-- `ValidateMovie` (movies.go, lines 26-42).  `currentYear` is
`time.Now().Year()`; Go's `len` of a string is its length in bytes. -/
def ValidateMovie (currentYear : Int) (v : Validator) (movie : Movie) : Validator :=
  let v := v.Check (!decide (movie.Title = "")) "title" "must be provided"
  let v := v.Check (decide (movie.Title.utf8ByteSize ≤ 500)) "title"
    "must not be more that 500 bytes long"
  let v := v.Check (!decide (movie.Year = 0)) "year" "must be provided"
  let v := v.Check (decide (movie.Year ≥ 2000)) "year" "must be newer than 2000"
  let v := v.Check (decide (movie.Year ≤ currentYear)) "year" "can not be in the future"
  let v := v.Check (!decide (movie.Runtime = 0)) "runtime" "must be provided"
  let v := v.Check (decide (movie.Runtime > 0)) "runtime" "must be positive"
  let v := v.Check (movie.Genres.isSome) "genre" "must be provided"
  let v := v.Check (decide (sliceLen movie.Genres ≥ 1)) "genre" "must contain at least one genre"
  let v := v.Check (decide (sliceLen movie.Genres ≤ 5)) "genre"
    "must not contain more that five genres"
  v.Check (Unique movie.Genres) "genre" "must not contain duplicate values"

/-! ## cmd/api/movies.go: updateMovieHandler, the merge -/

/-- The anonymous `input` struct of `updateMovieHandler` after decoding: a nil
pointer or nil slice is `none`. -/
structure UpdateInput where
  Title : Option String
  Year : Option Int
  Runtime : Option Int
  Genres : Option (List String)
deriving DecidableEq, Repr

/-- The four `if input.X != nil` assignments of `updateMovieHandler`
(cmd/api/movies.go, lines 111-125). -/
def mergeInput (input : UpdateInput) (movie : Movie) : Movie :=
  let movie := match input.Title with
    | some t => { movie with Title := t }
    | none => movie
  let movie := match input.Year with
    | some y => { movie with Year := y }
    | none => movie
  let movie := match input.Runtime with
    | some r => { movie with Runtime := r }
    | none => movie
  match input.Genres with
  | some g => { movie with Genres := some g }
  | none => movie

/-! ## cmd/api/middlewares.go: rateLimit -/

/-- The token bucket of `golang.org/x/time/rate`, a library outside the
repository, taken as a parameter: `newLimiter` is
`rate.NewLimiter(rate.Limit(rps), brust)`, and `allow now l` is `l.Allow()`
called at clock reading `now`, giving the answer and the limiter afterwards. -/
structure LimiterOps (L : Type) where
  newLimiter : L
  allow : Int → L → Bool × L

/-- The `client` struct declared inside `rateLimit`; `lastSeen` is a clock
reading in nanoseconds. -/
structure client (L : Type) where
  limiter : L
  lastSeen : Int
deriving DecidableEq, Repr

/-- The `clients` map of `rateLimit`: `clients ip` is the entry under key `ip`,
`none` when the key is not in the map. -/
abbrev Clients (L : Type) := String → Option (client L)

/-- The map made by `make(map[string]*client)`. -/
def emptyClients (L : Type) : Clients L := fun _ => none

/-- The map assignment `clients[ip] = c`. -/
def setClient {L : Type} (clients : Clients L) (ip : String) (c : client L) : Clients L :=
  fun k => if k = ip then some c else clients k

/-- The largest `time.Duration`, in nanoseconds. -/
def maxDuration : Int := 9223372036854775807

/-- The smallest `time.Duration`, in nanoseconds. -/
def minDuration : Int := -9223372036854775808

/-- Go's `time.Since(t)` read at clock value `now`: the difference `now - t`,
which `Time.Sub` saturates to the range of `time.Duration`. -/
def since (now t : Int) : Int :=
  if now - t > maxDuration then maxDuration
  else if now - t < minDuration then minDuration
  else now - t

/-- Go's `time.Minute`, in nanoseconds. -/
def minute : Int := 60 * 1000000000

/-- One pass of the sweeper goroutine over the map (middlewares.go, lines
34-38) at clock reading `now`: every entry with
`time.Since(client.lastSeen) > 3*time.Minute` is deleted. -/
def sweep {L : Type} (now : Int) (clients : Clients L) : Clients L :=
  fun ip =>
    match clients ip with
    | some c => if since now c.lastSeen > 3 * minute then none else some c
    | none => none

/-- How the middleware ends: with the server-error response, with the
rate-limit-exceeded response, or by calling the next handler. -/
inductive Admission where
  | serverError
  | rateLimitExceeded
  | next
deriving DecidableEq, Repr

/-- The handler returned by `rateLimit` (middlewares.go, lines 44-67), for one
request arriving at clock reading `now`, which stands for both `time.Now()` and
the clock that `Allow` reads.  `splitHostPort` is `net.SplitHostPort` reduced
to the host it returns, `none` when it reports an error.  `Allow` works on the
limiter behind the pointer in the map, so the entry holds the limiter it
leaves. -/
def rateLimit {L : Type} (ops : LimiterOps L) (enabled : Bool)
    (splitHostPort : String → Option String) (now : Int) (remoteAddr : String)
    (clients : Clients L) : Clients L × Admission :=
  if enabled then
    match splitHostPort remoteAddr with
    | none => (clients, .serverError)
    | some ip =>
      let found : client L :=
        match clients ip with
        | some c => c
        | none => { limiter := ops.newLimiter, lastSeen := now }
      let clients1 :=
        match clients ip with
        | some _ => clients
        | none => setClient clients ip found
      let a := ops.allow now found.limiter
      let clients2 := setClient clients1 ip { found with limiter := a.2 }
      if !a.1 then (clients2, .rateLimitExceeded) else (clients2, .next)
  else (clients, .next)

/-- What happens to the map over time: a request passes through the middleware,
or the sweeper wakes up. -/
inductive Event where
  | request (now : Int) (remoteAddr : String)
  | sweeperPass (now : Int)
deriving DecidableEq, Repr

/-- One event applied to the map; the mutex makes each of them atomic. -/
def stepClients {L : Type} (ops : LimiterOps L) (enabled : Bool)
    (splitHostPort : String → Option String) (clients : Clients L) : Event → Clients L
  | .request now remoteAddr => (rateLimit ops enabled splitHostPort now remoteAddr clients).1
  | .sweeperPass now => sweep now clients

/-- A sequence of events applied to the map, first to last. -/
def runClients {L : Type} (ops : LimiterOps L) (enabled : Bool)
    (splitHostPort : String → Option String) (clients : Clients L) (es : List Event) :
    Clients L :=
  es.foldl (stepClients ops enabled splitHostPort) clients

/-- A limiter to evaluate the middleware with: a bucket of `burst` tokens that
is never refilled. -/
def countingLimiter (burst : Nat) : LimiterOps Nat where
  newLimiter := burst
  allow := fun _ tokens => if tokens = 0 then (false, tokens) else (true, tokens - 1)

/-- A host splitter to evaluate the middleware with: the text before the last
colon of an address without brackets, `none` when there is no colon or the
host holds a colon or a bracket. -/
def splitHostPortPlain (hostport : String) : Option String :=
  let rev := hostport.toList.reverse
  match rev.dropWhile (fun ch => !decide (ch = ':')) with
  | [] => none
  | _ :: hostRev =>
    if hostRev.any (fun ch => decide (ch = ':') || decide (ch = '[') || decide (ch = ']'))
    then none else some (String.mk hostRev.reverse)

/-- Every entry of `ip` was last seen more than three minutes before `t`. -/
def idleAt {L : Type} (t : Int) (ip : String) (clients : Clients L) : Prop :=
  ∀ c, clients ip = some c → t - c.lastSeen > 3 * minute

/-! ## internal/data/filters.go (not among the sources) -/

/-- Modelled from the spec: the `Filters` struct of `internal/data/filters.go`,
whose file is not among the sources; the fields are the ones that
`listMovieHandler` assigns; `SortToken` is the Go field `Sort`, a reserved word
here. -/
structure Filters where
  Page : Int
  PageSize : Int
  SortToken : String
  SortSafelist : List String
deriving DecidableEq, Repr

/-- Modelled from the spec: `Filters.sortColumn`, the effective column name,
which is the sort token with any leading `-` stripped (section 4.2). -/
def Filters.sortColumn (f : Filters) : String :=
  match f.SortToken.toList with
  | '-' :: rest => String.mk rest
  | _ => f.SortToken

/-- Modelled from the spec: `Filters.sortDirection`, descending iff the token
starts with `-` (section 4.2). -/
def Filters.sortDirection (f : Filters) : String :=
  match f.SortToken.toList with
  | '-' :: _ => "DESC"
  | _ => "ASC"

/-- Modelled from the spec: `Filters.limit`, the page size (section 4.2). -/
def Filters.limit (f : Filters) : Int := f.PageSize

/-- Modelled from the spec: `Filters.offset`, (page - 1) x page size
(section 4.2). -/
def Filters.offset (f : Filters) : Int := (f.Page - 1) * f.PageSize

/-- Modelled from the spec: `ValidateFilters` of `internal/data/filters.go`:
page in [1, 10,000,000], page size in [1, 100], sort token an exact member of
the safelist; every violation is reported through the validator and no check
is skipped (section 4.2). -/
def ValidateFilters (v : Validator) (f : Filters) : Validator :=
  let v := v.Check (decide (1 ≤ f.Page ∧ f.Page ≤ 10000000)) "page"
    "must be between 1 and 10 million"
  let v := v.Check (decide (1 ≤ f.PageSize ∧ f.PageSize ≤ 100)) "page_size"
    "must be between 1 and 100"
  v.Check (decide (f.SortToken ∈ f.SortSafelist)) "sort" "invalid sort value"

/-- Modelled from the spec: the `Metadata` struct of
`internal/data/filters.go`: current page, page size, last page and total
record count (section 3). -/
structure Metadata where
  CurrentPage : Int
  PageSize : Int
  LastPage : Int
  TotalRecords : Int
deriving DecidableEq, Repr

/-- Modelled from the spec: `calculateMetadata` of `internal/data/filters.go`:
all-zero metadata when the total is 0, otherwise the page and page size echoed,
the total, and last page = ceil(total / page size) (section 4.2); the quotient
below is that ceiling for a positive page size. -/
def calculateMetadata (totalRecords page pageSize : Int) : Metadata :=
  if totalRecords = 0 then { CurrentPage := 0, PageSize := 0, LastPage := 0, TotalRecords := 0 }
  else { CurrentPage := page, PageSize := pageSize,
         LastPage := (totalRecords + pageSize - 1) / pageSize,
         TotalRecords := totalRecords }

/-! ## internal/data/movies.go: GetAll -/

/-- The `WHERE` clause of the listing query on one row.  `tsMatch rowTitle q`
is the store's text-search predicate
`to_tsvector('simple', title) @@ plainto_tsquery('simple', q)`; a NULL array
on either side of `@>` or `=` makes the clause unknown, which drops the row. -/
def matchesFilters (tsMatch : String → String → Bool) (title : String)
    (genres : Option (List String)) (r : Movie) : Bool :=
  (tsMatch r.Title title || decide (title = "")) &&
  (match genres with
   | none => false
   | some g =>
     (match r.Genres with
      | none => false
      | some rg => g.all (fun x => decide (x ∈ rg))) || g.isEmpty)

/-- The rows that match the title and genre filters, whatever the window. -/
def matchingRows (tsMatch : String → String → Bool) (title : String)
    (genres : Option (List String)) (db : DB) : List Movie :=
  db.filter (matchesFilters tsMatch title genres)

/-- The columns a listing can be ordered by. -/
inductive Column where
  | id
  | title
  | year
  | runtime
deriving DecidableEq, Repr

/-- The column that a name in the `ORDER BY` clause denotes, if any. -/
def Column.ofName (name : String) : Option Column :=
  if name = "id" then some .id
  else if name = "title" then some .title
  else if name = "year" then some .year
  else if name = "runtime" then some .runtime
  else none

/-- Whether row `a` comes strictly before row `b` in ascending order of the
column; titles are compared as Lean strings. -/
def Column.lt (c : Column) (a b : Movie) : Bool :=
  match c with
  | .id => decide (a.Id < b.Id)
  | .title => decide (a.Title < b.Title)
  | .year => decide (a.Year < b.Year)
  | .runtime => decide (a.Runtime < b.Runtime)

/-- The order `ORDER BY column direction, id ASC`: whether row `a` may stand
before row `b`. -/
def rowBefore (c : Column) (desc : Bool) (a b : Movie) : Bool :=
  let first := if desc then c.lt b a else c.lt a b
  let second := if desc then c.lt a b else c.lt b a
  first || (!second && decide (a.Id ≤ b.Id))

/-- Insertion of a row into a list ordered by `rowBefore`. -/
def insertRow (c : Column) (desc : Bool) (a : Movie) : List Movie → List Movie
  | [] => [a]
  | b :: bs => if rowBefore c desc a b then a :: b :: bs else b :: insertRow c desc a bs

/-- The rows ordered by `rowBefore`. -/
def sortRows (c : Column) (desc : Bool) : List Movie → List Movie
  | [] => []
  | a :: as => insertRow c desc a (sortRows c desc as)

/-- The listing query of `GetAll` run against the table: the matching rows,
ordered, cut to the `LIMIT`/`OFFSET` window.  The store rejects an unknown
column and a negative limit or offset. -/
def execSelect (tsMatch : String → String → Bool) (db : DB) (title : String)
    (genres : Option (List String)) (column direction : String) (limit offset : Int) :
    Except GoError (List Movie) :=
  match Column.ofName column with
  | none => .error (.storage "column does not exist")
  | some c =>
    if limit < 0 then .error (.storage "LIMIT must not be negative")
    else if offset < 0 then .error (.storage "OFFSET must not be negative")
    else
      .ok (((sortRows c (decide (direction = "DESC"))
              (matchingRows tsMatch title genres db)).drop offset.toNat).take limit.toNat)

/-- The three results of `GetAll`; `movies` is `none` for the nil slice. -/
structure GetAllResult where
  movies : Option (List Movie)
  metadata : Metadata
  err : Option GoError
deriving DecidableEq, Repr

/-- `MovieModel.GetAll` (movies.go, lines 76-127).  `calcMetadata` is the
function `calculateMetadata` of `internal/data/filters.go` that the body calls;
`totalRecords` is declared as 0 and nothing assigns to it before that call. -/
def GetAll (calcMetadata : Int → Int → Int → Metadata) (tsMatch : String → String → Bool)
    (db : DB) (title : String) (genres : Option (List String)) (filters : Filters) :
    GetAllResult :=
  match execSelect tsMatch db title genres filters.sortColumn filters.sortDirection
      filters.limit filters.offset with
  | .error e =>
    { movies := none,
      metadata := { CurrentPage := 0, PageSize := 0, LastPage := 0, TotalRecords := 0 },
      err := some e }
  | .ok rows =>
    let totalRecords : Int := 0
    let movies := rows
    let metadata := calcMetadata totalRecords filters.Page filters.PageSize
    { movies := some movies, metadata := metadata, err := none }

/-- A table of 23 movies, ids 1 to 23, to evaluate the listing on. -/
def sampleTable : DB :=
  (List.range 23).map
    (fun i => { Id := (i : Int) + 1, Title := "Movie", Year := 2010, Runtime := 100,
                CreatedAt := 0, Genres := some ["drama"], Version := 1 })

/-- The filter spec of the second page of ten, ordered by id. -/
def samplePage : Filters :=
  { Page := 2, PageSize := 10, SortToken := "id",
    SortSafelist := ["id", "title", "year", "runtime", "-id", "-title", "-year", "-runtime"] }

/-! ## cmd/api/helpers.go: readString, readCSV, readInt -/

/-- The pieces of a list of characters between occurrences of `sep`, as
`strings.Split` cuts them for a one-character separator. -/
def splitChars (sep : Char) : List Char → List (List Char)
  | [] => [[]]
  | c :: cs =>
    if c = sep then [] :: splitChars sep cs
    else
      match splitChars sep cs with
      | [] => [[c]]
      | piece :: pieces => (c :: piece) :: pieces

/-- `readString` (helpers.go, lines 94-102).  `qu key` is `qu.Get(key)`, the
first value of the key or the empty string. -/
def readString (qu : String → String) (key defaultValue : String) : String :=
  let s := qu key
  if s = "" then defaultValue else s

/-- `readCSV` (helpers.go, lines 104-112). -/
def readCSV (qu : String → String) (key : String) (defaultValue : Option (List String)) :
    Option (List String) :=
  let csv := qu key
  if csv = "" then defaultValue
  else some ((splitChars ',' csv.toList).map String.mk)

/-- `readInt` (helpers.go, lines 114-128): the integer read and the validator
afterwards.  `atoi` is `strconv.Atoi`, `none` when it reports an error. -/
def readInt (atoi : String → Option Int) (qu : String → String) (key : String)
    (defaultValue : Int) (v : Validator) : Int × Validator :=
  let s := qu key
  if s = "" then (defaultValue, v)
  else
    match atoi s with
    | none => (defaultValue, v.AddError key "must be an integer")
    | some i => (i, v)

/-- The value of a decimal digit. -/
def digitValue (c : Char) : Option Nat :=
  if '0' ≤ c ∧ c ≤ '9' then some (c.toNat - '0'.toNat) else none

/-- The number written by a list of decimal digits, read after `acc`. -/
def parseDigits : List Char → Nat → Option Nat
  | [], acc => some acc
  | c :: cs, acc =>
    match digitValue c with
    | none => none
    | some d => parseDigits cs (acc * 10 + d)

/-- A parser to evaluate the handler with, after `strconv.Atoi` with a 64-bit
`int`: an optional sign, then one or more decimal digits, the value within the
range of `int`. -/
def atoiDecimal (s : String) : Option Int :=
  match s.toList with
  | [] => none
  | '-' :: cs =>
    if cs = [] then none
    else (parseDigits cs 0).bind
      (fun n => if n ≤ 9223372036854775808 then some (-(n : Int)) else none)
  | '+' :: cs =>
    if cs = [] then none
    else (parseDigits cs 0).bind
      (fun n => if n ≤ 9223372036854775807 then some (n : Int) else none)
  | cs =>
    (parseDigits cs 0).bind
      (fun n => if n ≤ 9223372036854775807 then some (n : Int) else none)

/-! ## cmd/api/movies.go: listMovieHandler -/

/-- The safelist that `listMovieHandler` assigns to `Filters.SortSafelist`. -/
def movieSortSafelist : List String :=
  ["id", "title", "year", "runtime", "-id", "-title", "-year", "-runtime"]

/-- The response that `listMovieHandler` writes. -/
inductive ListOutcome where
  | failedValidation (errors : List (String × String))
  | serverError (err : GoError)
  | ok (movies : Option (List Movie)) (metadata : Metadata)
deriving DecidableEq, Repr

/-- The arguments of one call of `MovieModel.GetAll`. -/
structure GetAllCall where
  title : String
  genres : Option (List String)
  filters : Filters
deriving DecidableEq, Repr

/-- One run of `listMovieHandler`: the response, and the calls of
`MovieModel.GetAll` made on the way. -/
structure ListRun where
  outcome : ListOutcome
  getAllCalls : List GetAllCall
deriving DecidableEq, Repr

/-- `listMovieHandler` (cmd/api/movies.go, lines 175-211) on the query `qu`
against the table `db`.  A failure of `writeJson` is left out. -/
def listMovieHandler (atoi : String → Option Int) (tsMatch : String → String → Bool)
    (db : DB) (qu : String → String) : ListRun :=
  let v := Validator.New
  let title := readString qu "title" ""
  let genres := readCSV qu "genres" (some [])
  let page := readInt atoi qu "page" 1 v
  let pageSize := readInt atoi qu "page_size" 10 page.2
  let sort := readString qu "sort" "id"
  let filters : Filters :=
    { Page := page.1, PageSize := pageSize.1, SortToken := sort,
      SortSafelist := movieSortSafelist }
  let v := ValidateFilters pageSize.2 filters
  if !v.Valid then { outcome := .failedValidation v.Errors, getAllCalls := [] }
  else
    let r := GetAll calculateMetadata tsMatch db title genres filters
    match r.err with
    | some err =>
      { outcome := .serverError err,
        getAllCalls := [{ title := title, genres := genres, filters := filters }] }
    | none =>
      { outcome := .ok r.movies r.metadata,
        getAllCalls := [{ title := title, genres := genres, filters := filters }] }

/-- A query string holding the given keys and values: `Get` of a key gives its
first value, or the empty string. -/
def queryOf (pairs : List (String × String)) : String → String :=
  fun key => (pairs.lookup key).getD ""

/-! ## cmd/api/routes.go, and the Location header of createMovieHandler -/

/-- Where a request ends up: in one of the handlers registered in `routes`,
with the text matched by the id wildcard where there is one, or in one of the
mux's own answers. -/
inductive Route where
  | healthHandler
  | listMovieHandler
  | createMovieHandler
  | showMovieHandler (id : String)
  | updateMovieHandler (id : String)
  | deleteMovieHandler (id : String)
  | notFound
  | methodNotAllowed
  | movedPermanently
deriving DecidableEq, Repr

/-- The segments of a path that starts with a slash; `none` for any other
text. -/
def pathSegments (path : String) : Option (List String) :=
  match path.toList with
  | '/' :: rest => some ((splitChars '/' rest).map String.mk)
  | _ => none

/-- The mux `v1router` of `routes` (routes.go, lines 10-16) on clean paths.  A
pattern for `GET` also serves `HEAD`; the id wildcard matches one non-empty
segment; a path that only patterns of other methods match is answered with 405. -/
def v1router (method path : String) : Route :=
  let isGet := decide (method = "GET") || decide (method = "HEAD")
  match pathSegments path with
  | some ["health"] => if isGet then .healthHandler else .methodNotAllowed
  | some ["movies"] =>
    if isGet then .listMovieHandler
    else if method = "POST" then .createMovieHandler
    else .methodNotAllowed
  | some ["movies", id] =>
    if id = "" then .notFound
    else if isGet then .showMovieHandler id
    else if method = "PATCH" then .updateMovieHandler id
    else if method = "DELETE" then .deleteMovieHandler id
    else .methodNotAllowed
  | _ => .notFound

/-- The mux `router` of `routes` (routes.go, lines 18-19) on clean paths: the
subtree pattern `/v1/` hands every path under it to `v1router` with the `/v1`
in front removed, the path `/v1` itself is redirected to `/v1/`, and nothing
else is registered.  The middleware chain around it does not choose a
handler. -/
def routes (method path : String) : Route :=
  match path.toList with
  | '/' :: 'v' :: '1' :: '/' :: rest => v1router method (String.mk ('/' :: rest))
  | ['/', 'v', '1'] => .movedPermanently
  | _ => .notFound

/-- The value that `createMovieHandler` sets for the `Location` header
(cmd/api/movies.go, line 47): `fmt.Sprintf("/v1/movie/%d", movie.Id)`. -/
def locationHeader (id : Int) : String :=
  "/v1/movie/" ++ toString id

/-! ## Theorems -/

/-! ### The update statement -/

theorem updateGuard_iff (id version : Int) (r : Movie) :
    updateGuard id version r = true ↔ r.Id = id ∧ r.Version = version := by
  simp [updateGuard]

theorem execUpdate_rows_nil_iff (db : DB) (m : Movie) :
    (execUpdate db m.Title m.Year m.Runtime m.Genres m.Id m.Version).2 = [] ↔
      ∀ r ∈ db, ¬ (r.Id = m.Id ∧ r.Version = m.Version) := by
  simp only [execUpdate, List.map_eq_nil_iff, List.filter_eq_nil_iff, updateGuard_iff]

theorem execUpdate_db_of_no_row (db : DB) (m : Movie)
    (h : ∀ r ∈ db, ¬ (r.Id = m.Id ∧ r.Version = m.Version)) :
    (execUpdate db m.Title m.Year m.Runtime m.Genres m.Id m.Version).1 = db := by
  simp only [execUpdate]
  conv_rhs => rw [← List.map_id db]
  apply List.map_congr_left
  intro r hr
  have hg : updateGuard m.Id m.Version r = false := by
    cases hb : updateGuard m.Id m.Version r with
    | false => rfl
    | true => exact absurd ((updateGuard_iff _ _ _).1 hb) (h r hr)
  simp [hg]

theorem execUpdate_rows_head (db : DB) (m : Movie) (v : Int) (vs : List Int)
    (h : (execUpdate db m.Title m.Year m.Runtime m.Genres m.Id m.Version).2 = v :: vs) :
    v = m.Version + 1 := by
  simp only [execUpdate] at h
  have hv : v ∈ (db.filter (updateGuard m.Id m.Version)).map
      (fun r => (updateSet m.Title m.Year m.Runtime m.Genres r).Version) := by
    rw [h]; exact List.mem_cons_self _ _
  obtain ⟨r, hr, rfl⟩ := List.mem_map.1 hv
  have hg := (updateGuard_iff _ _ _).1 (List.mem_filter.1 hr).2
  simp [updateSet, hg.2]

theorem Update_of_no_row (db : DB) (m : Movie)
    (h : ∀ r ∈ db, ¬ (r.Id = m.Id ∧ r.Version = m.Version)) :
    Update db m = { db := db, movie := m, err := some .ErrEditConflict } := by
  have h1 := (execUpdate_rows_nil_iff db m).2 h
  have h2 := execUpdate_db_of_no_row db m h
  simp only [Update, h1, h2, scanRow]

theorem Update_of_row (db : DB) (m : Movie)
    (h : ∃ r ∈ db, r.Id = m.Id ∧ r.Version = m.Version) :
    Update db m =
      { db := (execUpdate db m.Title m.Year m.Runtime m.Genres m.Id m.Version).1,
        movie := { m with Version := m.Version + 1 }, err := none } := by
  cases hq : (execUpdate db m.Title m.Year m.Runtime m.Genres m.Id m.Version).2 with
  | nil =>
    obtain ⟨r, hr, hrm⟩ := h
    exact absurd hrm ((execUpdate_rows_nil_iff db m).1 hq r hr)
  | cons v vs =>
    have hv := execUpdate_rows_head db m v vs hq
    simp only [Update, hq, scanRow, hv]

theorem Update_err_none_iff (db : DB) (m : Movie) :
    (Update db m).err = none ↔ ∃ r ∈ db, r.Id = m.Id ∧ r.Version = m.Version := by
  by_cases h : ∃ r ∈ db, r.Id = m.Id ∧ r.Version = m.Version
  · simp [Update_of_row db m h, h]
  · have h' : ∀ r ∈ db, ¬ (r.Id = m.Id ∧ r.Version = m.Version) := by
      intro r hr hrm; exact h ⟨r, hr, hrm⟩
    simp [Update_of_no_row db m h', h]

theorem execUpdate_getElem? (db : DB) (m : Movie) (i : Nat) :
    (execUpdate db m.Title m.Year m.Runtime m.Genres m.Id m.Version).1[i]? =
      (db[i]?).map (fun r =>
        if r.Id = m.Id ∧ r.Version = m.Version then
          { r with Title := m.Title, Year := m.Year, Runtime := m.Runtime, Genres := m.Genres,
                   Version := m.Version + 1 }
        else r) := by
  simp only [execUpdate, List.getElem?_map]
  cases db[i]? with
  | none => rfl
  | some r =>
    simp only [Option.map_some']
    by_cases hg : r.Id = m.Id ∧ r.Version = m.Version
    · have hb := (updateGuard_iff m.Id m.Version r).2 hg
      simp [hb, hg, updateSet]
    · have hb : updateGuard m.Id m.Version r = false := by
        cases hb : updateGuard m.Id m.Version r with
        | false => rfl
        | true => exact absurd ((updateGuard_iff _ _ _).1 hb) hg
      simp [hb, hg]

/-- C1. `MovieModel.Update` over an explicit table: it returns nil exactly when
the table holds a row with the movie's id at the version the movie carries; on
success the table keeps its length, every such row takes the movie's title,
year, runtime and genres and the version `carried + 1` (its id and creation
time stay), every other row is untouched, and the movie's `Version` field
becomes `carried + 1`; in every other case the result is `ErrEditConflict`
(not nil, not `ErrRecordNotFound`) and neither the table nor the movie
changes. -/
theorem Update_contract (db : DB) (movie : Movie) :
    ((Update db movie).err = none ↔
        ∃ r ∈ db, r.Id = movie.Id ∧ r.Version = movie.Version) ∧
    ((Update db movie).err = none →
        (Update db movie).movie = { movie with Version := movie.Version + 1 } ∧
        (Update db movie).db.length = db.length ∧
        ∀ (i : Nat) (r : Movie), db[i]? = some r →
          (Update db movie).db[i]? = some
            (if r.Id = movie.Id ∧ r.Version = movie.Version then
              { Id := r.Id, Title := movie.Title, Year := movie.Year,
                Runtime := movie.Runtime, CreatedAt := r.CreatedAt,
                Genres := movie.Genres, Version := movie.Version + 1 }
             else r)) ∧
    ((Update db movie).err ≠ none →
        (Update db movie).err = some GoError.ErrEditConflict ∧
        (Update db movie).err ≠ some GoError.ErrRecordNotFound ∧
        (Update db movie).db = db ∧ (Update db movie).movie = movie) := by
  refine ⟨Update_err_none_iff db movie, ?_, ?_⟩
  · intro h
    have hrow := (Update_err_none_iff db movie).1 h
    rw [Update_of_row db movie hrow]
    refine ⟨rfl, ?_, ?_⟩
    · simp [execUpdate]
    · intro i r hi
      simp only [execUpdate_getElem?, hi, Option.map_some']
  · intro h
    have hrow : ∀ r ∈ db, ¬ (r.Id = movie.Id ∧ r.Version = movie.Version) := by
      intro r hr hrm
      exact h ((Update_err_none_iff db movie).2 ⟨r, hr, hrm⟩)
    rw [Update_of_no_row db movie hrow]
    simp

/-- C1, at a concrete table: the row with id 7 at version 3 is rewritten and the
stale caller is told of the conflict. -/
theorem Update_contract_witness :
    (Update [⟨7, "Old", 2001, 90, 0, some ["drama"], 3⟩]
        ⟨7, "New", 2010, 148, 0, some ["scifi"], 3⟩).err = none ∧
    (Update [⟨7, "Old", 2001, 90, 0, some ["drama"], 3⟩]
        ⟨7, "New", 2010, 148, 0, some ["scifi"], 3⟩).movie =
      ⟨7, "New", 2010, 148, 0, some ["scifi"], 4⟩ ∧
    (Update [⟨7, "Old", 2001, 90, 0, some ["drama"], 3⟩]
        ⟨7, "New", 2010, 148, 0, some ["scifi"], 2⟩).err = some GoError.ErrEditConflict := by
  have h1 := Update_contract [⟨7, "Old", 2001, 90, 0, some ["drama"], 3⟩]
    ⟨7, "New", 2010, 148, 0, some ["scifi"], 3⟩
  have h2 := Update_contract [⟨7, "Old", 2001, 90, 0, some ["drama"], 3⟩]
    ⟨7, "New", 2010, 148, 0, some ["scifi"], 2⟩
  have e1 : (Update [⟨7, "Old", 2001, 90, 0, some ["drama"], 3⟩]
      ⟨7, "New", 2010, 148, 0, some ["scifi"], 3⟩).err = none :=
    h1.1.2 ⟨_, List.mem_singleton.2 rfl, rfl, rfl⟩
  have e2 : (Update [⟨7, "Old", 2001, 90, 0, some ["drama"], 3⟩]
      ⟨7, "New", 2010, 148, 0, some ["scifi"], 2⟩).err ≠ none := by
    intro h
    obtain ⟨r, hr, _, hv⟩ := h2.1.1 h
    rw [List.mem_singleton.1 hr] at hv
    exact absurd hv (by decide)
  exact ⟨e1, (h1.2.1 e1).1, (h2.2.2 e2).1⟩

/-! ### Two updates from the same starting version -/

theorem Update_db_no_row (db : DB) (m : Movie) :
    ∀ r ∈ (Update db m).db, ¬ (r.Id = m.Id ∧ r.Version = m.Version) := by
  intro r hr hrm
  by_cases h : ∃ x ∈ db, x.Id = m.Id ∧ x.Version = m.Version
  · rw [Update_of_row db m h] at hr
    simp only [execUpdate, List.mem_map] at hr
    obtain ⟨x, _, hx⟩ := hr
    by_cases hg : updateGuard m.Id m.Version x = true
    · have hxm := (updateGuard_iff _ _ _).1 hg
      rw [if_pos hg] at hx
      have hv : r.Version = x.Version + 1 := by rw [← hx]; rfl
      rw [hxm.2] at hv
      omega
    · rw [if_neg hg] at hx
      rw [← hx] at hrm
      exact hg ((updateGuard_iff _ _ _).2 hrm)
  · have h' : ∀ x ∈ db, ¬ (x.Id = m.Id ∧ x.Version = m.Version) := by
      intro x hx hxm; exact h ⟨x, hx, hxm⟩
    rw [Update_of_no_row db m h'] at hr
    exact h' r hr hrm

/-- C2. Two `Update` calls that carry the same id and the same starting
version, run one after the other (the statement is symmetric in the two
movies, so it covers both orders): they never both return nil; the first
returns nil or `ErrEditConflict`, and nil exactly when a row with that id stood
at the starting version; the second always returns `ErrEditConflict` and leaves
the table as the first one left it; and every row that stood at the starting
version ends at `startVersion + 1`, not `startVersion + 2`. -/
theorem Update_same_version_twice (db : DB) (m1 m2 : Movie)
    (hid : m1.Id = m2.Id) (hver : m1.Version = m2.Version) :
    ¬ ((Update db m1).err = none ∧ (Update (Update db m1).db m2).err = none) ∧
    ((Update db m1).err = none ∨ (Update db m1).err = some GoError.ErrEditConflict) ∧
    ((Update db m1).err = none ↔ ∃ r ∈ db, r.Id = m1.Id ∧ r.Version = m1.Version) ∧
    (Update (Update db m1).db m2).err = some GoError.ErrEditConflict ∧
    (Update (Update db m1).db m2).db = (Update db m1).db ∧
    (∀ (i : Nat) (r : Movie), db[i]? = some r → r.Id = m1.Id → r.Version = m1.Version →
      ∃ r2, (Update (Update db m1).db m2).db[i]? = some r2 ∧
        r2.Id = m1.Id ∧ r2.Version = m1.Version + 1 ∧ r2.Version ≠ m1.Version + 2) := by
  have hno : ∀ r ∈ (Update db m1).db, ¬ (r.Id = m2.Id ∧ r.Version = m2.Version) := by
    rw [← hid, ← hver]; exact Update_db_no_row db m1
  have h2 := Update_of_no_row (Update db m1).db m2 hno
  have hiff := Update_err_none_iff db m1
  refine ⟨?_, ?_, hiff, ?_, ?_, ?_⟩
  · rintro ⟨_, h⟩
    rw [h2] at h
    exact absurd h (by simp)
  · by_cases h : (Update db m1).err = none
    · exact Or.inl h
    · have hrow : ∀ r ∈ db, ¬ (r.Id = m1.Id ∧ r.Version = m1.Version) := by
        intro r hr hrm
        exact h (hiff.2 ⟨r, hr, hrm⟩)
      rw [Update_of_no_row db m1 hrow]
      exact Or.inr rfl
  · rw [h2]
  · rw [h2]
  · intro i r hi hrid hrv
    have hex : ∃ x ∈ db, x.Id = m1.Id ∧ x.Version = m1.Version :=
      ⟨r, List.getElem?_mem hi, hrid, hrv⟩
    rw [h2, Update_of_row db m1 hex]
    simp only [execUpdate_getElem?, hi, Option.map_some', if_pos (And.intro hrid hrv)]
    exact ⟨_, rfl, hrid, rfl, by simp⟩

/-- C2, at a concrete table: two writers that both read version 3 of movie 7. -/
theorem Update_same_version_twice_witness :
    (Update [⟨7, "Old", 2001, 90, 0, some ["drama"], 3⟩]
        ⟨7, "A", 2010, 148, 0, some ["scifi"], 3⟩).err = none ∧
    (Update (Update [⟨7, "Old", 2001, 90, 0, some ["drama"], 3⟩]
        ⟨7, "A", 2010, 148, 0, some ["scifi"], 3⟩).db
        ⟨7, "B", 2011, 100, 0, some ["crime"], 3⟩).err = some GoError.ErrEditConflict := by
  have h := Update_same_version_twice [⟨7, "Old", 2001, 90, 0, some ["drama"], 3⟩]
    ⟨7, "A", 2010, 148, 0, some ["scifi"], 3⟩ ⟨7, "B", 2011, 100, 0, some ["crime"], 3⟩
    rfl rfl
  exact ⟨h.2.2.1.2 ⟨_, List.mem_singleton.2 rfl, rfl, rfl⟩, h.2.2.2.1⟩

/-! ### The delete statement -/

theorem execDelete_count_eq_zero_iff (db : DB) (id : Int) :
    (execDelete db id).2 = 0 ↔ ∀ r ∈ db, r.Id ≠ id := by
  simp [execDelete, List.filter_eq_nil_iff]

theorem execDelete_db_of_no_row (db : DB) (id : Int) (h : ∀ r ∈ db, r.Id ≠ id) :
    (execDelete db id).1 = db := by
  simp only [execDelete]
  apply List.filter_eq_self.2
  intro r hr
  simp [h r hr]

theorem mem_execDelete_db (db : DB) (id : Int) (r : Movie) :
    r ∈ (execDelete db id).1 ↔ r ∈ db ∧ r.Id ≠ id := by
  simp [execDelete, List.mem_filter]

theorem Delete_of_no_row (db : DB) (id : Int) (h : ∀ r ∈ db, r.Id ≠ id) :
    Delete db id = (db, some GoError.ErrRecordNotFound) := by
  simp only [Delete, (execDelete_count_eq_zero_iff db id).2 h, if_true,
    execDelete_db_of_no_row db id h]

theorem Delete_of_row (db : DB) (id : Int) (h : ∃ r ∈ db, r.Id = id) :
    Delete db id = ((execDelete db id).1, none) := by
  have hne : ¬ (execDelete db id).2 = 0 := by
    intro h0
    obtain ⟨r, hr, hrid⟩ := h
    exact (execDelete_count_eq_zero_iff db id).1 h0 r hr hrid
  simp only [Delete, if_neg hne]

/-- C8. `MovieModel.Delete` over an explicit table: it returns nil exactly when
a row with that id exists; afterwards the table holds exactly the former rows
with another id, in their order; when no row has the id it returns
`ErrRecordNotFound` and the table is unchanged; and of two successive calls on
an existing id the first returns nil and the second `ErrRecordNotFound`. -/
theorem Delete_contract (db : DB) (id : Int) :
    ((Delete db id).2 = none ↔ ∃ r ∈ db, r.Id = id) ∧
    (∀ r, r ∈ (Delete db id).1 ↔ r ∈ db ∧ r.Id ≠ id) ∧
    (Delete db id).1.Sublist db ∧
    ((¬ ∃ r ∈ db, r.Id = id) → Delete db id = (db, some GoError.ErrRecordNotFound)) ∧
    ((∃ r ∈ db, r.Id = id) →
        (Delete db id).2 = none ∧
        Delete (Delete db id).1 id = ((Delete db id).1, some GoError.ErrRecordNotFound)) := by
  have hmem : ∀ r, r ∈ (Delete db id).1 ↔ r ∈ db ∧ r.Id ≠ id := by
    intro r
    have : (Delete db id).1 = (execDelete db id).1 := by
      simp only [Delete]; split <;> rfl
    rw [this]; exact mem_execDelete_db db id r
  have hnone : (¬ ∃ r ∈ db, r.Id = id) → Delete db id = (db, some GoError.ErrRecordNotFound) := by
    intro h
    exact Delete_of_no_row db id (fun r hr hrid => h ⟨r, hr, hrid⟩)
  refine ⟨?_, hmem, ?_, hnone, ?_⟩
  · by_cases h : ∃ r ∈ db, r.Id = id
    · simp [Delete_of_row db id h, h]
    · simp [hnone h, h]
  · have : (Delete db id).1 = (execDelete db id).1 := by
      simp only [Delete]; split <;> rfl
    rw [this]
    exact List.filter_sublist db
  · intro h
    refine ⟨by rw [Delete_of_row db id h], ?_⟩
    exact Delete_of_no_row _ id (fun r hr => ((hmem r).1 hr).2)

/-- C8, at a concrete table: deleting movie 7 twice. -/
theorem Delete_contract_witness :
    (Delete [⟨7, "Old", 2001, 90, 0, some ["drama"], 3⟩] 7).2 = none ∧
    Delete (Delete [⟨7, "Old", 2001, 90, 0, some ["drama"], 3⟩] 7).1 7 =
      ((Delete [⟨7, "Old", 2001, 90, 0, some ["drama"], 3⟩] 7).1,
        some GoError.ErrRecordNotFound) :=
  (Delete_contract [⟨7, "Old", 2001, 90, 0, some ["drama"], 3⟩] 7).2.2.2.2
    ⟨_, List.mem_singleton.2 rfl, rfl⟩

/-! ### The validator and ValidateMovie -/

theorem Validator.Valid_Check (v : Validator) (c : Bool) (key message : String) :
    (v.Check c key message).Valid = true ↔ c = true ∧ v.Valid = true := by
  cases c <;> simp [Validator.Check, Validator.AddError, Validator.Valid]

theorem Validator.Check_New_lookup (c : Bool) (key message : String) :
    (Validator.New.Check c key message).Errors.lookup key = some message ↔ c = false := by
  cases c <;> simp [Validator.Check, Validator.AddError, Validator.New, List.lookup]

/-- C7. For every movie and a fresh validator, after `ValidateMovie` the
validator is valid iff the title is non-empty and at most 500 bytes long, the
year is at least 2000 and at most the current year, the runtime is greater
than 0, and the genres list has between 1 and 5 entries, pairwise distinct;
here `Check` on a fresh validator records its message under its field iff its
condition is false. -/
theorem ValidateMovie_valid_iff (currentYear : Int) (movie : Movie) :
    ((ValidateMovie currentYear Validator.New movie).Valid = true ↔
      movie.Title ≠ "" ∧ movie.Title.utf8ByteSize ≤ 500 ∧
      2000 ≤ movie.Year ∧ movie.Year ≤ currentYear ∧
      0 < movie.Runtime ∧
      1 ≤ sliceLen movie.Genres ∧ sliceLen movie.Genres ≤ 5 ∧
      (movie.Genres.getD []).Pairwise (fun a b => a ≠ b)) ∧
    (∀ (c : Bool) (key message : String),
      (Validator.New.Check c key message).Errors.lookup key = some message ↔ c = false) := by
  refine ⟨?_, Validator.Check_New_lookup⟩
  simp only [ValidateMovie, Validator.Valid_Check, Unique, Bool.not_eq_true', decide_eq_false_iff_not,
    decide_eq_true_eq, ge_iff_le, gt_iff_lt, List.Nodup]
  constructor
  · rintro ⟨hu, h5, h1, _, hr, _, hy, h2000, _, h500, ht, _⟩
    exact ⟨ht, h500, h2000, hy, hr, h1, h5, hu⟩
  · rintro ⟨ht, h500, h2000, hy, hr, h1, h5, hu⟩
    refine ⟨hu, h5, h1, ?_, hr, ?_, hy, h2000, ?_, h500, ht, rfl⟩
    · cases hg : movie.Genres with
      | none => rw [hg] at h1; simp [sliceLen] at h1
      | some g => rfl
    · omega
    · omega

/-- C7, at concrete movies: the movie of the end-to-end example passes, and the
same movie dated 1999 does not. -/
theorem ValidateMovie_valid_iff_witness :
    (ValidateMovie 2026 Validator.New
        ⟨0, "Inception", 2010, 148, 0, some ["scifi", "thriller"], 0⟩).Valid = true ∧
    ¬ (ValidateMovie 2026 Validator.New
        ⟨0, "Inception", 1999, 148, 0, some ["scifi", "thriller"], 0⟩).Valid = true := by
  refine ⟨(ValidateMovie_valid_iff 2026
      ⟨0, "Inception", 2010, 148, 0, some ["scifi", "thriller"], 0⟩).1.2 (by decide), ?_⟩
  intro h
  have h2 := ((ValidateMovie_valid_iff 2026
      ⟨0, "Inception", 1999, 148, 0, some ["scifi", "thriller"], 0⟩).1.1 h).2.2.1
  exact absurd h2 (by decide)

/-! ### The merge of updateMovieHandler -/

/-- C9. In the merge of the decoded payload into the fetched movie, each of
title, year, runtime and genres keeps the movie's current value when the
payload holds none, and takes the payload's value when it holds one, whatever
that value is (the empty string, zero and the empty list included); the id, the
creation time and the version are never changed. -/
theorem mergeInput_fields (input : UpdateInput) (movie : Movie) :
    (input.Title = none → (mergeInput input movie).Title = movie.Title) ∧
    (∀ t, input.Title = some t → (mergeInput input movie).Title = t) ∧
    (input.Year = none → (mergeInput input movie).Year = movie.Year) ∧
    (∀ y, input.Year = some y → (mergeInput input movie).Year = y) ∧
    (input.Runtime = none → (mergeInput input movie).Runtime = movie.Runtime) ∧
    (∀ r, input.Runtime = some r → (mergeInput input movie).Runtime = r) ∧
    (input.Genres = none → (mergeInput input movie).Genres = movie.Genres) ∧
    (∀ g, input.Genres = some g → (mergeInput input movie).Genres = some g) ∧
    (mergeInput input movie).Id = movie.Id ∧
    (mergeInput input movie).CreatedAt = movie.CreatedAt ∧
    (mergeInput input movie).Version = movie.Version := by
  obtain ⟨t, y, r, g⟩ := input
  cases t <;> cases y <;> cases r <;> cases g <;> simp [mergeInput]

/-- C9, at a concrete payload: an empty title, a zero year and an empty genres
list are written, the runtime that was not supplied stays. -/
theorem mergeInput_fields_witness :
    (mergeInput ⟨some "", some 0, none, some []⟩
        ⟨7, "Old", 2001, 90, 5, some ["drama"], 3⟩) =
      ⟨7, "", 0, 90, 5, some [], 3⟩ := by
  have h := mergeInput_fields ⟨some "", some 0, none, some []⟩
    ⟨7, "Old", 2001, 90, 5, some ["drama"], 3⟩
  obtain ⟨_, ht, _, hy, hr, _, _, hg, hid, hc, hv⟩ := h
  have e1 := ht "" rfl
  have e2 := hy 0 rfl
  have e3 := hr rfl
  have e4 := hg [] rfl
  generalize mergeInput ⟨some "", some 0, none, some []⟩
    ⟨7, "Old", 2001, 90, 5, some ["drama"], 3⟩ = m at *
  obtain ⟨a, b, c, d, e, f, g⟩ := m
  simp only at e1 e2 e3 e4 hid hc hv
  subst e1 e2 e3 e4 hid hc hv
  rfl

/-! ### The rate limiter -/

theorem since_gt_iff (now t : Int) : since now t > 3 * minute ↔ now - t > 3 * minute := by
  unfold since maxDuration minDuration minute
  split_ifs <;> omega

theorem setClient_same {L : Type} (clients : Clients L) (ip : String) (c : client L) :
    setClient clients ip c ip = some c := by
  simp [setClient]

theorem setClient_other {L : Type} (clients : Clients L) (ip k : String) (c : client L)
    (h : k ≠ ip) : setClient clients ip c k = clients k := by
  simp [setClient, h]

theorem rateLimit_other {L : Type} (ops : LimiterOps L) (enabled : Bool)
    (splitHostPort : String → Option String) (now : Int) (remoteAddr : String)
    (clients : Clients L) (k : String) (hk : splitHostPort remoteAddr ≠ some k) :
    (rateLimit ops enabled splitHostPort now remoteAddr clients).1 k = clients k := by
  unfold rateLimit
  cases enabled with
  | false => rfl
  | true =>
    simp only [if_true]
    cases hs : splitHostPort remoteAddr with
    | none => rfl
    | some ip =>
      have hne : k ≠ ip := by
        intro h; apply hk; rw [hs, h]
      cases hc : clients ip with
      | none =>
        simp only [hc, setClient_same]
        split_ifs <;> simp [setClient_other _ _ _ _ hne]
      | some c =>
        simp only [hc]
        split_ifs <;> simp [setClient_other _ _ _ _ hne]

theorem rateLimit_tracked {L : Type} (ops : LimiterOps L)
    (splitHostPort : String → Option String) (now : Int) (remoteAddr ip : String)
    (clients : Clients L) (c : client L)
    (hs : splitHostPort remoteAddr = some ip) (hc : clients ip = some c) :
    (rateLimit ops true splitHostPort now remoteAddr clients).1 ip =
      some { limiter := (ops.allow now c.limiter).2, lastSeen := c.lastSeen } := by
  unfold rateLimit
  simp only [if_true, hs, hc]
  split_ifs <;> simp [setClient_same]

theorem rateLimit_untracked {L : Type} (ops : LimiterOps L)
    (splitHostPort : String → Option String) (now : Int) (remoteAddr ip : String)
    (clients : Clients L)
    (hs : splitHostPort remoteAddr = some ip) (hc : clients ip = none) :
    (rateLimit ops true splitHostPort now remoteAddr clients).1 ip =
      some { limiter := (ops.allow now ops.newLimiter).2, lastSeen := now } := by
  unfold rateLimit
  simp only [if_true, hs, hc, setClient_same]
  split_ifs <;> simp [setClient_same]


theorem sweep_of_idle {L : Type} (now : Int) (clients : Clients L) (ip : String) (c : client L)
    (hc : clients ip = some c) (h : now - c.lastSeen > 3 * minute) :
    sweep now clients ip = none := by
  simp only [sweep, hc, if_pos ((since_gt_iff now c.lastSeen).2 h)]

theorem sweep_of_fresh {L : Type} (now : Int) (clients : Clients L) (ip : String) (c : client L)
    (hc : clients ip = some c) (h : ¬ now - c.lastSeen > 3 * minute) :
    sweep now clients ip = some c := by
  have h' : ¬ since now c.lastSeen > 3 * minute := fun hs => h ((since_gt_iff now c.lastSeen).1 hs)
  simp only [sweep, hc, if_neg h']

theorem sweep_of_absent {L : Type} (now : Int) (clients : Clients L) (ip : String)
    (hc : clients ip = none) : sweep now clients ip = none := by
  simp only [sweep, hc]

theorem stepClients_idleAt {L : Type} (ops : LimiterOps L) (enabled : Bool)
    (splitHostPort : String → Option String) (t : Int) (ip : String)
    (clients : Clients L) (e : Event) (hidle : idleAt t ip clients)
    (he : ∀ now addr, e = Event.request now addr → splitHostPort addr = some ip →
      t - now > 3 * minute) :
    idleAt t ip (stepClients ops enabled splitHostPort clients e) := by
  cases e with
  | sweeperPass now =>
    intro c hc
    simp only [stepClients] at hc
    cases hci : clients ip with
    | none => rw [sweep_of_absent now clients ip hci] at hc; exact absurd hc (by simp)
    | some c0 =>
      by_cases hold : now - c0.lastSeen > 3 * minute
      · rw [sweep_of_idle now clients ip c0 hci hold] at hc; exact absurd hc (by simp)
      · rw [sweep_of_fresh now clients ip c0 hci hold] at hc
        exact hidle c (by rw [hci, ← hc])
  | request now addr =>
    intro c hc
    simp only [stepClients] at hc
    by_cases hs : splitHostPort addr = some ip
    · cases enabled with
      | false =>
        simp only [rateLimit] at hc
        exact hidle c hc
      | true =>
        cases hci : clients ip with
        | none =>
          rw [rateLimit_untracked ops splitHostPort now addr ip clients hs hci] at hc
          have hls : c.lastSeen = now := by
            rw [← Option.some.inj hc]
          rw [hls]
          exact he now addr rfl hs
        | some c0 =>
          rw [rateLimit_tracked ops splitHostPort now addr ip clients c0 hs hci] at hc
          have hls : c.lastSeen = c0.lastSeen := by
            rw [← Option.some.inj hc]
          rw [hls]
          exact hidle c0 hci
    · rw [rateLimit_other ops enabled splitHostPort now addr clients ip hs] at hc
      exact hidle c hc

theorem runClients_idleAt {L : Type} (ops : LimiterOps L) (enabled : Bool)
    (splitHostPort : String → Option String) (t : Int) (ip : String) (es : List Event) :
    ∀ (clients : Clients L), idleAt t ip clients →
      (∀ now addr, Event.request now addr ∈ es → splitHostPort addr = some ip →
        t - now > 3 * minute) →
      idleAt t ip (runClients ops enabled splitHostPort clients es) := by
  induction es with
  | nil => intro clients h _; exact h
  | cons e es ih =>
    intro clients h hes
    simp only [runClients, List.foldl_cons]
    apply ih
    · apply stepClients_idleAt ops enabled splitHostPort t ip clients e h
      intro now addr heq hs
      exact hes now addr (by rw [heq]; exact List.mem_cons_self _ _) hs
    · intro now addr hmem hs
      exact hes now addr (List.mem_cons_of_mem _ hmem) hs

/-- C4, evaluated on a tracked identity.  The map tracks `10.0.0.1`, last seen
at clock reading 0; a request from `10.0.0.1:5000` arrives 200 seconds later
with the limiter enabled.  Whether the request is allowed (four tokens left) or
rejected (no token left), the entry's last-seen is still 0 afterwards, not the
time of the request, and a sweeper pass right after the request deletes the
identity that has just been seen. -/
theorem rateLimit_tracked_lastSeen_not_refreshed :
    (rateLimit (countingLimiter 4) true splitHostPortPlain 200000000000 "10.0.0.1:5000"
        (setClient (emptyClients Nat) "10.0.0.1" { limiter := 4, lastSeen := 0 })).2
      = Admission.next ∧
    (rateLimit (countingLimiter 4) true splitHostPortPlain 200000000000 "10.0.0.1:5000"
        (setClient (emptyClients Nat) "10.0.0.1" { limiter := 4, lastSeen := 0 })).1 "10.0.0.1"
      = some { limiter := 3, lastSeen := 0 } ∧
    (rateLimit (countingLimiter 4) true splitHostPortPlain 200000000000 "10.0.0.1:5000"
        (setClient (emptyClients Nat) "10.0.0.1" { limiter := 0, lastSeen := 0 })).2
      = Admission.rateLimitExceeded ∧
    (rateLimit (countingLimiter 4) true splitHostPortPlain 200000000000 "10.0.0.1:5000"
        (setClient (emptyClients Nat) "10.0.0.1" { limiter := 0, lastSeen := 0 })).1 "10.0.0.1"
      = some { limiter := 0, lastSeen := 0 } ∧
    sweep 200000000001
      (rateLimit (countingLimiter 4) true splitHostPortPlain 200000000000 "10.0.0.1:5000"
        (setClient (emptyClients Nat) "10.0.0.1" { limiter := 4, lastSeen := 0 })).1 "10.0.0.1"
      = none := by
  refine ⟨by decide, by decide, by decide, by decide, by decide⟩

/-- C5. One pass of the sweeper at clock reading `now` deletes exactly the
identities whose last-seen lies more than three minutes before `now`: such an
identity is absent afterwards, every other tracked identity is still present
with the same limiter and last-seen, and no identity is added.  Hence, starting
from the empty map, after any run of requests and sweeper passes in which every
request of an identity came more than three minutes before `now`, that identity
is absent after a pass at `now`. -/
theorem sweep_contract {L : Type} (ops : LimiterOps L) (enabled : Bool)
    (splitHostPort : String → Option String) (now : Int) (clients : Clients L) :
    (∀ ip c, clients ip = some c → now - c.lastSeen > 3 * minute →
      sweep now clients ip = none) ∧
    (∀ ip c, clients ip = some c → ¬ now - c.lastSeen > 3 * minute →
      sweep now clients ip = some c) ∧
    (∀ ip, clients ip = none → sweep now clients ip = none) ∧
    (∀ (es : List Event) (ip : String),
      (∀ t addr, Event.request t addr ∈ es → splitHostPort addr = some ip →
        now - t > 3 * minute) →
      sweep now (runClients ops enabled splitHostPort (emptyClients L) es) ip = none) := by
  refine ⟨sweep_of_idle now clients, sweep_of_fresh now clients, sweep_of_absent now clients, ?_⟩
  intro es ip hes
  have hidle := runClients_idleAt ops enabled splitHostPort now ip es (emptyClients L)
    (by intro c hc; simp [emptyClients] at hc) hes
  cases hc : runClients ops enabled splitHostPort (emptyClients L) es ip with
  | none => exact sweep_of_absent now _ ip hc
  | some c => exact sweep_of_idle now _ ip c hc (hidle c hc)

/-- C5, at a concrete map: at 3 minutes and 1 nanosecond the identity last seen
at 0 is deleted and the one last seen at 1 is kept; and an identity whose only
request came at 0 is gone after a pass at that time. -/
theorem sweep_contract_witness :
    sweep 180000000001
      (setClient (setClient (emptyClients Nat) "10.0.0.1" { limiter := 4, lastSeen := 0 })
        "10.0.0.2" { limiter := 2, lastSeen := 1 }) "10.0.0.1" = none ∧
    sweep 180000000001
      (setClient (setClient (emptyClients Nat) "10.0.0.1" { limiter := 4, lastSeen := 0 })
        "10.0.0.2" { limiter := 2, lastSeen := 1 }) "10.0.0.2"
      = some { limiter := 2, lastSeen := 1 } ∧
    sweep 180000000001
      (runClients (countingLimiter 4) true splitHostPortPlain (emptyClients Nat)
        [Event.request 0 "10.0.0.1:5000"]) "10.0.0.1" = none := by
  have h := sweep_contract (countingLimiter 4) true splitHostPortPlain 180000000001
    (setClient (setClient (emptyClients Nat) "10.0.0.1" { limiter := 4, lastSeen := 0 })
      "10.0.0.2" { limiter := 2, lastSeen := 1 })
  refine ⟨h.1 "10.0.0.1" { limiter := 4, lastSeen := 0 } (by decide) (by decide),
    h.2.1 "10.0.0.2" { limiter := 2, lastSeen := 1 } (by decide) (by decide),
    h.2.2.2 [Event.request 0 "10.0.0.1:5000"] "10.0.0.1" ?_⟩
  intro t addr hmem _
  have ht : t = 0 := by
    simp only [List.mem_singleton, Event.request.injEq] at hmem
    exact hmem.1
  rw [ht]; decide

/-! ### The listing metadata -/

theorem GetAll_metadata (calcMetadata : Int → Int → Int → Metadata)
    (tsMatch : String → String → Bool) (db : DB) (title : String)
    (genres : Option (List String)) (filters : Filters)
    (h : (GetAll calcMetadata tsMatch db title genres filters).err = none) :
    (GetAll calcMetadata tsMatch db title genres filters).metadata =
      calcMetadata 0 filters.Page filters.PageSize := by
  unfold GetAll at h ⊢
  split
  · rename_i e he
    rw [he] at h
    simp at h
  · rfl

theorem GetAll_err_indep (calcA calcB : Int → Int → Int → Metadata)
    (tsMatch : String → String → Bool) (db : DB) (title : String)
    (genres : Option (List String)) (filters : Filters) :
    (GetAll calcA tsMatch db title genres filters).err =
      (GetAll calcB tsMatch db title genres filters).err := by
  unfold GetAll
  split <;> rfl

/-- C3, evaluated on 23 matching rows.  On a table of 23 movies, with no title
or genre filter, page 2 and page size 10, all 23 rows match the filters and
`GetAll` returns without error the ten movies with ids 11 to 20.  Whatever
function stands for `calculateMetadata`, the metadata returned is its value at
total 0, the same as on the empty table; with `calculateMetadata` as the spec
gives it that is total records 0 and last page 0, where the count of matching
rows gives total 23 and last page 3. -/
theorem GetAll_metadata_total_zero :
    (matchingRows (fun _ _ => false) "" (some []) sampleTable).length = 23 ∧
    (GetAll calculateMetadata (fun _ _ => false) sampleTable "" (some []) samplePage).err
      = none ∧
    ((GetAll calculateMetadata (fun _ _ => false) sampleTable "" (some []) samplePage).movies.map
        (fun ms => ms.map (fun m => m.Id))) = some [11, 12, 13, 14, 15, 16, 17, 18, 19, 20] ∧
    (∀ calcMetadata : Int → Int → Int → Metadata,
      (GetAll calcMetadata (fun _ _ => false) sampleTable "" (some []) samplePage).metadata =
        calcMetadata 0 2 10 ∧
      (GetAll calcMetadata (fun _ _ => false) sampleTable "" (some []) samplePage).metadata =
        (GetAll calcMetadata (fun _ _ => false) [] "" (some []) samplePage).metadata) ∧
    (GetAll calculateMetadata (fun _ _ => false) sampleTable "" (some []) samplePage).metadata =
      { CurrentPage := 0, PageSize := 0, LastPage := 0, TotalRecords := 0 } ∧
    calculateMetadata 23 2 10 =
      { CurrentPage := 2, PageSize := 10, LastPage := 3, TotalRecords := 23 } := by
  have hall : ∀ calcMetadata : Int → Int → Int → Metadata,
      (GetAll calcMetadata (fun _ _ => false) sampleTable "" (some []) samplePage).metadata =
        calcMetadata 0 2 10 := by
    intro calcMetadata
    apply GetAll_metadata calcMetadata _ sampleTable "" (some []) samplePage
    rw [GetAll_err_indep calcMetadata calculateMetadata]
    decide
  refine ⟨by decide, by decide, by decide, ?_, ?_, by decide⟩
  · intro calcMetadata
    refine ⟨hall calcMetadata, ?_⟩
    rw [hall calcMetadata]
    symm
    apply GetAll_metadata calcMetadata _ [] "" (some []) samplePage
    rw [GetAll_err_indep calcMetadata calculateMetadata]
    decide
  · rw [hall calculateMetadata]
    decide

/-! ### The Location header and the routes -/

theorem locationHeader_ne (n : Int) : locationHeader n ≠ "/v1/movies/" ++ toString n := by
  intro h
  have h2 := congrArg String.data h
  simp only [locationHeader, String.data_append] at h2
  simp at h2

/-- C10, evaluated at id 1.  For the movie created with id 1 the Location
header is `/v1/movie/1`; the routing table answers `GET /v1/movie/1` with
not-found, while it is `GET /v1/movies/1` that it dispatches to
`showMovieHandler` with path id `1`; and for no id at all does the header have
the form `/v1/movies/n`. -/
theorem locationHeader_not_routed :
    locationHeader 1 = "/v1/movie/1" ∧
    routes "GET" (locationHeader 1) = Route.notFound ∧
    routes "GET" "/v1/movies/1" = Route.showMovieHandler "1" ∧
    (∀ n : Int, locationHeader n ≠ "/v1/movies/" ++ toString n) := by
  refine ⟨by decide, by decide, by decide, locationHeader_ne⟩

/-! ### The validation gate of listMovieHandler -/

theorem Validator.Valid_AddError (v : Validator) (key message : String) :
    (v.AddError key message).Valid = false := by
  simp [Validator.AddError, Validator.Valid]

theorem readInt_Valid (atoi : String → Option Int) (qu : String → String) (key : String)
    (d : Int) (v : Validator) :
    (readInt atoi qu key d v).2.Valid = true ↔
      v.Valid = true ∧ ¬ (qu key ≠ "" ∧ atoi (qu key) = none) := by
  unfold readInt
  by_cases hs : qu key = ""
  · simp [hs]
  · cases ha : atoi (qu key) with
    | none => simp [hs, ha, Validator.Valid_AddError]
    | some i => simp [hs, ha]

theorem ValidateFilters_Valid (v : Validator) (f : Filters) :
    (ValidateFilters v f).Valid = true ↔
      v.Valid = true ∧ (1 ≤ f.Page ∧ f.Page ≤ 10000000) ∧
      (1 ≤ f.PageSize ∧ f.PageSize ≤ 100) ∧ f.SortToken ∈ f.SortSafelist := by
  simp only [ValidateFilters, Validator.Valid_Check, decide_eq_true_eq]
  tauto

theorem Validator.Valid_New : Validator.New.Valid = true := rfl

theorem sortColumn_of_safelisted (f : Filters) (h : f.SortToken ∈ movieSortSafelist) :
    f.sortColumn ∈ ["id", "title", "year", "runtime"] := by
  simp only [movieSortSafelist, List.mem_cons, List.mem_singleton, List.not_mem_nil,
    or_false] at h
  rcases h with h | h | h | h | h | h | h | h <;>
    · simp only [Filters.sortColumn, h]
      decide

theorem readString_sort_not_safelisted (qu : String → String) :
    readString qu "sort" "id" ∉ movieSortSafelist ↔
      qu "sort" ≠ "" ∧ qu "sort" ∉ movieSortSafelist := by
  unfold readString
  by_cases h : qu "sort" = ""
  · simp only [h, if_true, ne_eq, not_true_eq_false, false_and, iff_false, not_not]
    decide
  · simp [h]

theorem listMovieHandler_gate_core (atoi : String → Option Int)
    (tsMatch : String → String → Bool) (db : DB) (qu : String → String) :
    (((qu "page" ≠ "" ∧ atoi (qu "page") = none) ∨
      (qu "page_size" ≠ "" ∧ atoi (qu "page_size") = none) ∨
      readString qu "sort" "id" ∉ movieSortSafelist) →
        (∃ errors, errors ≠ [] ∧
          (listMovieHandler atoi tsMatch db qu).outcome = ListOutcome.failedValidation errors) ∧
        (listMovieHandler atoi tsMatch db qu).getAllCalls = []) ∧
    (∀ call ∈ (listMovieHandler atoi tsMatch db qu).getAllCalls,
        call.filters.SortToken ∈ movieSortSafelist ∧
        call.filters.sortColumn ∈ ["id", "title", "year", "runtime"] ∧
        (1 ≤ call.filters.Page ∧ call.filters.Page ≤ 10000000) ∧
        (1 ≤ call.filters.PageSize ∧ call.filters.PageSize ≤ 100)) ∧
    ((listMovieHandler atoi tsMatch db qu).getAllCalls = [] ↔
        ∃ errors, (listMovieHandler atoi tsMatch db qu).outcome =
          ListOutcome.failedValidation errors) := by
  have hgate := ValidateFilters_Valid
    (readInt atoi qu "page_size" 10 (readInt atoi qu "page" 1 Validator.New).2).2
    { Page := (readInt atoi qu "page" 1 Validator.New).1,
      PageSize := (readInt atoi qu "page_size" 10 (readInt atoi qu "page" 1 Validator.New).2).1,
      SortToken := readString qu "sort" "id", SortSafelist := movieSortSafelist }
  rw [readInt_Valid, readInt_Valid] at hgate
  by_cases hv : (ValidateFilters
      (readInt atoi qu "page_size" 10 (readInt atoi qu "page" 1 Validator.New).2).2
      { Page := (readInt atoi qu "page" 1 Validator.New).1,
        PageSize := (readInt atoi qu "page_size" 10
          (readInt atoi qu "page" 1 Validator.New).2).1,
        SortToken := readString qu "sort" "id", SortSafelist := movieSortSafelist }).Valid = true
  · have hfacts := hgate.1 hv
    refine ⟨?_, ?_, ?_⟩
    · rintro (h | h | h)
      · exact absurd h hfacts.1.1.2
      · exact absurd h hfacts.1.2
      · exact absurd hfacts.2.2.2 h
    · intro call hcall
      simp only [listMovieHandler, hv, Bool.not_true] at hcall
      have hc : call.filters =
          { Page := (readInt atoi qu "page" 1 Validator.New).1,
            PageSize := (readInt atoi qu "page_size" 10
              (readInt atoi qu "page" 1 Validator.New).2).1,
            SortToken := readString qu "sort" "id", SortSafelist := movieSortSafelist } := by
        revert hcall
        simp only [Bool.false_eq_true, if_false]
        split <;> (intro hcall; rw [List.mem_singleton.1 hcall])
      rw [hc]
      exact ⟨hfacts.2.2.2, sortColumn_of_safelisted _ hfacts.2.2.2, hfacts.2.1, hfacts.2.2.1⟩
    · simp only [listMovieHandler, hv, Bool.not_true, Bool.false_eq_true, if_false]
      split <;> simp
  · have hv' : (ValidateFilters
        (readInt atoi qu "page_size" 10 (readInt atoi qu "page" 1 Validator.New).2).2
        { Page := (readInt atoi qu "page" 1 Validator.New).1,
          PageSize := (readInt atoi qu "page_size" 10
            (readInt atoi qu "page" 1 Validator.New).2).1,
          SortToken := readString qu "sort" "id",
          SortSafelist := movieSortSafelist }).Valid = false := by
      simpa using hv
    have hne : (ValidateFilters
        (readInt atoi qu "page_size" 10 (readInt atoi qu "page" 1 Validator.New).2).2
        { Page := (readInt atoi qu "page" 1 Validator.New).1,
          PageSize := (readInt atoi qu "page_size" 10
            (readInt atoi qu "page" 1 Validator.New).2).1,
          SortToken := readString qu "sort" "id",
          SortSafelist := movieSortSafelist }).Errors ≠ [] := by
      intro he
      rw [Validator.Valid, he] at hv'
      exact absurd hv' (by decide)
    have hrun : listMovieHandler atoi tsMatch db qu =
        { outcome := ListOutcome.failedValidation (ValidateFilters
            (readInt atoi qu "page_size" 10 (readInt atoi qu "page" 1 Validator.New).2).2
            { Page := (readInt atoi qu "page" 1 Validator.New).1,
              PageSize := (readInt atoi qu "page_size" 10
                (readInt atoi qu "page" 1 Validator.New).2).1,
              SortToken := readString qu "sort" "id",
              SortSafelist := movieSortSafelist }).Errors,
          getAllCalls := [] } := by
      simp only [listMovieHandler, hv', Bool.not_false, if_true]
    rw [hrun]
    refine ⟨fun _ => ⟨⟨_, hne, rfl⟩, rfl⟩, ?_, ?_⟩
    · intro call hcall
      exact absurd hcall (List.not_mem_nil _)
    · simp

/-- C6. `listMovieHandler` calls `MovieModel.GetAll` only when the validator
holds no error after the query has been read and `ValidateFilters` has run.
For every query in which `page` or `page_size` is non-empty and `strconv.Atoi`
rejects it, or in which the sort token (the `sort` value, or `id` when that is
empty) is not a member of the safelist, the handler answers with the
failed-validation response, carrying at least one error, and makes no call of
`GetAll`.  Every call it does make carries a sort token from the safelist, so
a column name among id, title, year and runtime, and a page and page size
within their bounds; it makes no call exactly when it answers with the
failed-validation response; and the sort token is off the safelist exactly
when the `sort` value is non-empty and off the safelist. -/
theorem listMovieHandler_validation_gate (atoi : String → Option Int)
    (tsMatch : String → String → Bool) (db : DB) (qu : String → String) :
    (((qu "page" ≠ "" ∧ atoi (qu "page") = none) ∨
      (qu "page_size" ≠ "" ∧ atoi (qu "page_size") = none) ∨
      readString qu "sort" "id" ∉ movieSortSafelist) →
        (∃ errors, errors ≠ [] ∧
          (listMovieHandler atoi tsMatch db qu).outcome = ListOutcome.failedValidation errors) ∧
        (listMovieHandler atoi tsMatch db qu).getAllCalls = []) ∧
    (∀ call ∈ (listMovieHandler atoi tsMatch db qu).getAllCalls,
        call.filters.SortToken ∈ movieSortSafelist ∧
        call.filters.sortColumn ∈ ["id", "title", "year", "runtime"] ∧
        (1 ≤ call.filters.Page ∧ call.filters.Page ≤ 10000000) ∧
        (1 ≤ call.filters.PageSize ∧ call.filters.PageSize ≤ 100)) ∧
    ((listMovieHandler atoi tsMatch db qu).getAllCalls = [] ↔
        ∃ errors, (listMovieHandler atoi tsMatch db qu).outcome =
          ListOutcome.failedValidation errors) ∧
    (readString qu "sort" "id" ∉ movieSortSafelist ↔
        qu "sort" ≠ "" ∧ qu "sort" ∉ movieSortSafelist) := by
  have hcore := listMovieHandler_gate_core atoi tsMatch db qu
  exact ⟨hcore.1, hcore.2.1, hcore.2.2, readString_sort_not_safelisted qu⟩

/-- C6, at concrete queries: a page that is not a number, and a sort token
that carries SQL, both end in the failed-validation response with no call of
`GetAll`. -/
theorem listMovieHandler_validation_gate_witness :
    ((∃ errors, errors ≠ [] ∧
        (listMovieHandler atoiDecimal (fun _ _ => false) sampleTable
          (queryOf [("page", "abc")])).outcome = ListOutcome.failedValidation errors) ∧
      (listMovieHandler atoiDecimal (fun _ _ => false) sampleTable
          (queryOf [("page", "abc")])).getAllCalls = []) ∧
    ((∃ errors, errors ≠ [] ∧
        (listMovieHandler atoiDecimal (fun _ _ => false) sampleTable
          (queryOf [("sort", "id; DROP TABLE movies")])).outcome =
            ListOutcome.failedValidation errors) ∧
      (listMovieHandler atoiDecimal (fun _ _ => false) sampleTable
          (queryOf [("sort", "id; DROP TABLE movies")])).getAllCalls = []) :=
  ⟨(listMovieHandler_validation_gate atoiDecimal (fun _ _ => false) sampleTable
      (queryOf [("page", "abc")])).1 (Or.inl (by decide)),
   (listMovieHandler_validation_gate atoiDecimal (fun _ _ => false) sampleTable
      (queryOf [("sort", "id; DROP TABLE movies")])).1 (Or.inr (Or.inr (by decide)))⟩

end Greenlight
